import Mathlib

/-!
Shallow embedding of gyre's deterministic batched random-number subsystem
(`gyre/pipeline/randtools.py`): the batch partitioner (`batched_rand`,
`batched_randn`), the override namespace (`TorchRandOverride`) and the
non-determinism tracker (`tracker`).

Modelling conventions:
* A torch `Generator` is a reproducible stream: its observable state is the
  seed it was last seeded with, the number of draws made since then (its
  internal sequence position), and the device it is bound to.  A single
  `torch.rand/randn/randint(size=(1,*trailing), generator=g, ...)` call is a
  deterministic function of that state and of the request parameters, and
  advances the position by one; we record the drawn slice symbolically as the
  tuple of everything that determines its bits.
* Tensors are modelled as the ordered list of single-sample slices that were
  concatenated along the batch axis (`torch.cat(..., dim=0)`), plus the
  device the result was finally transferred to with `.to(device)` (`none`
  models `.to(None)`, a no-op).
* Python exceptions become an explicit error type: `shape[0]` on an empty
  shape raises `IndexError`; `n % 0` raises `ZeroDivisionError`; the guard's
  `ValueError` is `invalidBatchSize`; `torch.cat` on an empty list raises
  `RuntimeError` (modelled as `catEmpty`).
* Mutation of generator state is explicit state passing: every operation
  returns its result together with the updated generator list.  Entries of
  the generator list are assumed to be distinct stream objects (no aliasing),
  matching the intended use of one independently seeded stream per sample.
-/

namespace Randtools

/-- Compute device a generator or tensor is bound to (`torch.device`). -/
inductive Device
  | cpu
  | cuda (index : Nat)
  deriving DecidableEq, Repr, Inhabited

/-- Numeric element type (`torch.dtype`). -/
inductive Dtype
  | float16
  | float32
  | float64
  | int32
  | int64
  deriving DecidableEq, Repr, Inhabited

/-- Which distribution a draw requests: `torch.rand` (uniform),
`torch.randn` (normal) or `torch.randint` (bounded integer, `high` may be
absent when the caller failed to supply it). -/
inductive Kind
  | uniform
  | normal
  | intRange (low : Int) (high : Option Int)
  deriving DecidableEq, Repr, Inhabited

/-- A seeded stream (`torch.Generator`): seed, internal sequence position
(number of draws since seeding) and bound device. -/
structure Generator where
  seed : Nat
  pos : Nat
  device : Device
  deriving DecidableEq, Repr, Inhabited

/-- One single-sample slice, recorded symbolically as everything that
determines its bits: the drawing stream's state and the request. -/
structure Slice where
  seed : Nat
  pos : Nat
  genDevice : Device
  dtype : Dtype
  trailing : List Nat
  kind : Kind
  deriving DecidableEq, Repr, Inhabited

/-- A batched result tensor: the slices concatenated along the batch axis in
index order, and the device it was finally transferred to (`none` models
`.to(None)`, which is a no-op). -/
structure Tensor where
  slices : List Slice
  toDevice : Option Device
  deriving DecidableEq, Repr, Inhabited

/-- Python exceptions the subsystem can surface. -/
inductive RandError
  | indexError
  | zeroDivision
  | invalidBatchSize (n g : Nat)
  | catEmpty
  deriving DecidableEq, Repr

/-- Draw one single-sample slice of shape `(1, *trailing)` from `g`
(`torch.rand/randn/randint(..., generator=g, device=g.device, dtype=dtype)`):
returns the slice and the generator with its sequence position advanced by
one. -/
def drawSlice (g : Generator) (trailing : List Nat) (dtype : Dtype)
    (kind : Kind) : Slice × Generator :=
  ({ seed := g.seed, pos := g.pos, genDevice := g.device, dtype := dtype,
     trailing := trailing, kind := kind },
   { g with pos := g.pos + 1 })

/-- One pass of the draw comprehension over the generator list: draws one
slice per generator, in list order, threading each generator's state. -/
def drawPass (trailing : List Nat) (dtype : Dtype) (kind : Kind) :
    List Generator → List Slice × List Generator
  | [] => ([], [])
  | g :: gs =>
    let d := drawSlice g trailing dtype kind
    let rest := drawPass trailing dtype kind gs
    (d.1 :: rest.1, d.2 :: rest.2)

/-- The comprehension `[... for generator in generators * k]`: `k`
sequential passes over the generator list, each draw advancing the shared
stream objects, so pass `c` sees every position advanced by `c`. -/
def drawPasses (trailing : List Nat) (dtype : Dtype) (kind : Kind) :
    Nat → List Generator → List Slice × List Generator
  | 0, gens => ([], gens)
  | k + 1, gens =>
    let p := drawPass trailing dtype kind gens
    let rest := drawPasses trailing dtype kind k p.2
    (p.1 ++ rest.1, rest.2)

/-- The batch partitioner core shared by `batched_rand` and `batched_randn`
(the two source functions are textually identical except for the torch draw
primitive, captured here by `kind`): evaluate `shape[0] % len(generators)`
(raising `IndexError` on an empty shape and `ZeroDivisionError` on an empty
generator list), raise the `ValueError` when the batch size is not a
multiple of the stream count, otherwise draw over
`generators * (shape[0] // len(generators))`, concatenate with `torch.cat`
(which raises on an empty list) and transfer the result `.to(device)`. -/
def batched_draw (kind : Kind) (shape : List Nat)
    (generators : List Generator) (device : Device) (dtype : Dtype) :
    Except RandError Tensor × List Generator :=
  match shape with
  | [] => (.error .indexError, generators)
  | n :: trailing =>
    if generators.length = 0 then
      (.error .zeroDivision, generators)
    else if n % generators.length ≠ 0 then
      (.error (.invalidBatchSize n generators.length), generators)
    else
      let r := drawPasses trailing dtype kind (n / generators.length) generators
      if r.1.isEmpty then (.error .catEmpty, r.2)
      else (.ok { slices := r.1, toDevice := some device }, r.2)

/-- `batched_rand(shape, generators, device, dtype)` from the source. -/
def batched_rand (shape : List Nat) (generators : List Generator)
    (device : Device) (dtype : Dtype) :
    Except RandError Tensor × List Generator :=
  batched_draw Kind.uniform shape generators device dtype

/-- `batched_randn(shape, generators, device, dtype)` from the source. -/
def batched_randn (shape : List Nat) (generators : List Generator)
    (device : Device) (dtype : Dtype) :
    Except RandError Tensor × List Generator :=
  batched_draw Kind.normal shape generators device dtype

/-- `generator.manual_seed(seed)` with the generator's own original seed:
resets the stream to its initial state (sequence position zero). -/
def manual_seed (g : Generator) : Generator :=
  { g with pos := 0 }

/-- A call to one of the two batch-partitioner entry points, with its draw
request (shape, target device, target dtype). -/
inductive BatchedCall
  | rand (shape : List Nat) (device : Device) (dtype : Dtype)
  | randn (shape : List Nat) (device : Device) (dtype : Dtype)
  deriving DecidableEq, Repr

/-- Execute one batched call against the current stream list. -/
def runCall (c : BatchedCall) (gens : List Generator) :
    Except RandError Tensor × List Generator :=
  match c with
  | .rand shape device dtype => batched_rand shape gens device dtype
  | .randn shape device dtype => batched_randn shape gens device dtype

/-- Execute a sequence of batched calls, threading the stream list through;
returns the output trace and the final stream states. -/
def runCalls : List BatchedCall → List Generator →
    List (Except RandError Tensor) × List Generator
  | [], gens => ([], gens)
  | c :: cs, gens =>
    let r := runCall c gens
    let rest := runCalls cs r.2
    (r.1 :: rest.1, rest.2)

/-- An existing tensor, as seen by the override namespace: its shape, the
device it lives on and its element type. -/
structure InputTensor where
  shape : List Nat
  device : Device
  dtype : Dtype
  deriving DecidableEq, Repr

/-- Result of an override-namespace operation: either a seeded batched draw,
or an ordinary unseeded torch draw (recorded by its parameters only — it is
not reproducible and consults no stream). -/
inductive DrawResult
  | seeded (t : Tensor)
  | unseeded (kind : Kind) (shape : List Nat) (device : Device) (dtype : Dtype)
  deriving DecidableEq, Repr

/-- The override namespace object, bound to a stream list at construction. -/
structure TorchRandOverride where
  generators : List Generator
  deriving DecidableEq, Repr

/-- `TorchRandOverride.randn_like(input, dtype=..., device=...)`: if the
input's batch size is not a multiple of the stream count, fall back to the
ordinary unseeded `torch.randn_like` (which defaults missing dtype/device to
the input's); otherwise default device/dtype from the input and defer to
`batched_randn` on the input's shape.  Evaluating `input.shape[0]` on an
empty shape raises `IndexError`, and `% len(self.generators)` on an empty
stream list raises `ZeroDivisionError`, exactly as in the partitioner. -/
def TorchRandOverride.randn_like (self : TorchRandOverride)
    (input : InputTensor) (dtype : Option Dtype) (device : Option Device) :
    Except RandError DrawResult × List Generator :=
  match input.shape with
  | [] => (.error .indexError, self.generators)
  | n :: _ =>
    if self.generators.length = 0 then
      (.error .zeroDivision, self.generators)
    else if n % self.generators.length ≠ 0 then
      (.ok (.unseeded .normal input.shape (device.getD input.device)
        (dtype.getD input.dtype)), self.generators)
    else
      let r := batched_randn input.shape self.generators
        (device.getD input.device) (dtype.getD input.dtype)
      (r.1.map .seeded, r.2)

/-- Positional-argument handling at the top of
`TorchRandOverride.randint_like`: one positional argument is `high`, two or
more are `low, high`, and a missing `low` defaults to `0`.  Returns the
final `(low, high)` pair. -/
def parse_randint_args (args : List Int) (high : Option Int)
    (low : Option Int) : Int × Option Int :=
  let parsed :=
    if args.length = 1 then (low, some (args.getD 0 0))
    else if 1 ≤ args.length then (some (args.getD 0 0), some (args.getD 1 0))
    else (low, high)
  (parsed.1.getD 0, parsed.2)

/-- `TorchRandOverride.randint_like(input, *args, high=, low=, dtype=,
device=)`: after positional-argument handling, the same divisibility check
as `randn_like`; the fallback is the ordinary unseeded `torch.randint_like`
(defaulting missing dtype/device to the input's); the seeded branch draws
ONE single-sample integer slice per generator — iterating
`self.generators` once, not cycled to the batch size — with
`torch.randint`'s own default dtype `int64` when none was given,
concatenates them and transfers `.to(device)` (a no-op when `device` is
`None`). -/
def TorchRandOverride.randint_like (self : TorchRandOverride)
    (input : InputTensor) (args : List Int) (high : Option Int)
    (low : Option Int) (dtype : Option Dtype) (device : Option Device) :
    Except RandError DrawResult × List Generator :=
  let lh := parse_randint_args args high low
  match input.shape with
  | [] => (.error .indexError, self.generators)
  | n :: trailing =>
    if self.generators.length = 0 then
      (.error .zeroDivision, self.generators)
    else if n % self.generators.length ≠ 0 then
      (.ok (.unseeded (.intRange lh.1 lh.2) input.shape
        (device.getD input.device) (dtype.getD input.dtype)), self.generators)
    else
      let r := drawPass trailing (dtype.getD Dtype.int64)
        (.intRange lh.1 lh.2) self.generators
      if r.1.isEmpty then (.error .catEmpty, r.2)
      else (.ok (.seeded { slices := r.1, toDevice := device }), r.2)

/-- Source location of the immediate caller of a tracked draw, as obtained
from `inspect.getframeinfo`: file name, line number and enclosing function
name. -/
structure CallSite where
  filename : String
  lineno : Nat
  function : String
  deriving DecidableEq, Repr

/-- The call-site key string built by the wrapper. -/
def CallSite.key (c : CallSite) : String :=
  c.filename ++ ":" ++ toString c.lineno ++ ":" ++ c.function

/-- The warning line logged for a call-site key. -/
def warnMsg (key : String) : String :=
  "Non-deterministic rand called at " ++ key

/-- Process-wide tracker state: the `warned` seen-set of call-site keys and
the sequence of warning lines emitted to the logger so far. -/
structure TrackerState where
  warned : List String
  log : List String
  deriving DecidableEq, Repr

/-- The wrapper that `tracker(wrapped)` builds around a random-draw entry
point.  `hasGenerator` is whether the keyword arguments contain an explicit
`generator`; `caller` is the immediate caller's frame info; `a` stands for
the full argument list, forwarded unchanged to the wrapped operation.  When
no generator was supplied and the call-site key is new, one warning line is
logged and the key is added to the seen-set; in every case the wrapped
operation's own result is returned. -/
def tracker_wrapper {α β : Type} (wrapped : α → β) (hasGenerator : Bool)
    (caller : CallSite) (a : α) (st : TrackerState) : β × TrackerState :=
  let st' :=
    if hasGenerator then st
    else
      let fullstr := caller.key
      if fullstr ∈ st.warned then st
      else { warned := fullstr :: st.warned,
             log := st.log ++ [warnMsg fullstr] }
  (wrapped a, st')

/-- One tracked call, as far as the tracker state is concerned: whether an
explicit generator was supplied, and the caller's source location. -/
structure TrackedCall where
  hasGenerator : Bool
  caller : CallSite
  deriving DecidableEq, Repr

/-- Run a sequence of tracked calls against the process-wide tracker state
(the wrapped operations' values do not feed back into the state, so they
are elided here). -/
def runTracked : List TrackedCall → TrackerState → TrackerState
  | [], st => st
  | c :: cs, st =>
    runTracked cs (tracker_wrapper (fun _ : Unit => ()) c.hasGenerator
      c.caller () st).2

/-- The tracker wrapper with the warning emission path through the
repository's logging setup made explicit.  `logger.warn` hands the record
to the handlers that `gyre/logging.py` attaches to the `gyre` logger: the
stream handler's stdlib `emit` swallows its own errors via `handleError`,
but the custom `StoreHandler.emit` has no `try`/`except`, and neither
stdlib `Handler.handle` (whose `try`/`finally` only releases the lock)
nor `Logger.callHandlers` catches — so a failure while that sink emits
the warning propagates out of `logger.warn`, before `warned.add(fullstr)`
runs and before the wrapped call is forwarded.  `sinkFails` says whether
the store sink fails on a given message; the first component is the
forwarded value, or the propagated exception (carrying the message being
emitted), and the second is the resulting process-wide tracker state (a
failed emission records no warning line and does not touch the
seen-set). -/
def tracker_wrapper_sink {α β : Type} (wrapped : α → β)
    (sinkFails : String → Bool) (hasGenerator : Bool) (caller : CallSite)
    (a : α) (st : TrackerState) : Except String β × TrackerState :=
  if hasGenerator then (.ok (wrapped a), st)
  else
    let fullstr := caller.key
    if fullstr ∈ st.warned then (.ok (wrapped a), st)
    else if sinkFails (warnMsg fullstr) then (.error (warnMsg fullstr), st)
    else (.ok (wrapped a),
      { warned := fullstr :: st.warned, log := st.log ++ [warnMsg fullstr] })

/-- The slice a single draw from `g` produces (first component of
`drawSlice`). -/
def mkSlice (g : Generator) (trailing : List Nat) (dtype : Dtype)
    (kind : Kind) : Slice :=
  { seed := g.seed, pos := g.pos, genDevice := g.device, dtype := dtype,
    trailing := trailing, kind := kind }

/-- Advance a stream's sequence position by `k` draws. -/
def advanceBy (k : Nat) (g : Generator) : Generator :=
  { g with pos := g.pos + k }

/-- The `i`-th single-sample slice of a batched-draw result, `none` when the
call failed or the index is out of range. -/
def sampleAt (r : Except RandError Tensor) (i : Nat) : Option Slice :=
  match r with
  | .ok t => t.slices.get? i
  | .error _ => none

/-- Number of warning lines for call-site key `k` in an emitted log. -/
def countKey (k : String) : List String → Nat
  | [] => 0
  | m :: ms => (if m = warnMsg k then 1 else 0) + countKey k ms

/-- The tracker-state transition one tracked call performs (the state
component of `tracker_wrapper`). -/
def trackStep (c : TrackedCall) (st : TrackerState) : TrackerState :=
  (tracker_wrapper (fun _ : Unit => ()) c.hasGenerator c.caller () st).2

/-! ### Helper lemmas about the draw loop -/

lemma advanceBy_zero (g : Generator) : advanceBy 0 g = g := by
  simp [advanceBy]

lemma advanceBy_advanceBy (j k : Nat) (g : Generator) :
    advanceBy k (advanceBy j g) = advanceBy (j + k) g := by
  simp [advanceBy, Nat.add_assoc]

lemma drawPass_eq (tr : List Nat) (dt : Dtype) (kd : Kind)
    (gens : List Generator) :
    drawPass tr dt kd gens =
      (gens.map (fun g => mkSlice g tr dt kd), gens.map (advanceBy 1)) := by
  induction gens with
  | nil => simp [drawPass]
  | cons g gs ih => simp [drawPass, drawSlice, mkSlice, advanceBy, ih]

lemma drawPasses_snd (tr : List Nat) (dt : Dtype) (kd : Kind) :
    ∀ (k : Nat) (gens : List Generator),
      (drawPasses tr dt kd k gens).2 = gens.map (advanceBy k) := by
  intro k
  induction k with
  | zero =>
    intro gens
    have h : advanceBy 0 = id := funext fun g => advanceBy_zero g
    simp [drawPasses, h]
  | succ k ih =>
    intro gens
    simp only [drawPasses, drawPass_eq, ih, List.map_map]
    refine List.map_congr_left ?_
    intro g _
    simp [Function.comp, advanceBy_advanceBy, Nat.add_comm]

lemma drawPasses_fst_length (tr : List Nat) (dt : Dtype) (kd : Kind) :
    ∀ (k : Nat) (gens : List Generator),
      (drawPasses tr dt kd k gens).1.length = k * gens.length := by
  intro k
  induction k with
  | zero => intro gens; simp [drawPasses]
  | succ k ih =>
    intro gens
    simp [drawPasses, drawPass_eq, ih, Nat.succ_mul, Nat.add_comm]

lemma drawPasses_fst_get? (tr : List Nat) (dt : Dtype) (kd : Kind) :
    ∀ (k : Nat) (gens : List Generator) (i : Nat),
      i < k * gens.length →
      (drawPasses tr dt kd k gens).1.get? i =
        (gens.get? (i % gens.length)).map
          (fun g => mkSlice (advanceBy (i / gens.length) g) tr dt kd) := by
  intro k
  induction k with
  | zero =>
    intro gens i hi
    omega
  | succ k ih =>
    intro gens i hi
    have hG : 0 < gens.length := by
      by_contra h
      have h0 : gens.length = 0 := by omega
      rw [h0, Nat.mul_zero] at hi
      omega
    simp only [drawPasses, drawPass_eq]
    rcases Nat.lt_or_ge i gens.length with hlt | hge
    · rw [List.get?_append (by simpa using hlt)]
      rw [List.get?_map, Nat.mod_eq_of_lt hlt, Nat.div_eq_of_lt hlt]
      cases hg : gens.get? i with
      | none => rfl
      | some g => simp [advanceBy_zero]
    · have hj : i = gens.length + (i - gens.length) := by omega
      set j := i - gens.length
      rw [List.get?_append_right (by simpa using hge)]
      have hlen : (gens.map (fun g => mkSlice g tr dt kd)).length =
          gens.length := by simp
      rw [hlen]
      have hjlt : j < k * (gens.map (advanceBy 1)).length := by
        simp only [List.length_map]
        have := hi
        rw [Nat.succ_mul] at this
        omega
      rw [ih (gens.map (advanceBy 1)) j hjlt]
      simp only [List.length_map, List.get?_map]
      have hmod : i % gens.length = j % gens.length := by
        rw [hj]
        exact Nat.add_mod_left _ _
      have hdiv : i / gens.length = j / gens.length + 1 := by
        rw [hj, Nat.add_comm gens.length j]
        exact Nat.add_div_right _ hG
      rw [hmod, hdiv]
      cases hg : gens.get? (j % gens.length) with
      | none => rfl
      | some g =>
        simp [advanceBy_advanceBy, Nat.add_comm]

/-! ### Helper lemmas about the batch partitioner -/

lemma batched_draw_nil_gens (kind : Kind) (n : Nat) (tr : List Nat)
    (d : Device) (dt : Dtype) :
    batched_draw kind (n :: tr) [] d dt = (.error .zeroDivision, []) := by
  simp [batched_draw]

lemma batched_draw_not_dvd (kind : Kind) (n : Nat) (tr : List Nat)
    (gens : List Generator) (d : Device) (dt : Dtype)
    (hG : 0 < gens.length) (hndvd : n % gens.length ≠ 0) :
    batched_draw kind (n :: tr) gens d dt =
      (.error (.invalidBatchSize n gens.length), gens) := by
  simp [batched_draw, Nat.pos_iff_ne_zero.mp hG, hndvd]

lemma batched_draw_zero_batch (kind : Kind) (tr : List Nat)
    (gens : List Generator) (d : Device) (dt : Dtype)
    (hG : 0 < gens.length) :
    batched_draw kind (0 :: tr) gens d dt = (.error .catEmpty, gens) := by
  simp [batched_draw, Nat.pos_iff_ne_zero.mp hG, drawPasses]

lemma batched_draw_pos (kind : Kind) (n : Nat) (tr : List Nat)
    (gens : List Generator) (d : Device) (dt : Dtype)
    (hG : 0 < gens.length) (hdvd : n % gens.length = 0) (hn : 0 < n) :
    batched_draw kind (n :: tr) gens d dt =
      (.ok { slices := (drawPasses tr dt kind (n / gens.length) gens).1,
             toDevice := some d },
       gens.map (advanceBy (n / gens.length))) := by
  have hmul : n / gens.length * gens.length = n :=
    Nat.div_mul_cancel (Nat.dvd_of_mod_eq_zero hdvd)
  have hne : (drawPasses tr dt kind (n / gens.length) gens).1 ≠ [] := by
    intro h
    have hlen := drawPasses_fst_length tr dt kind (n / gens.length) gens
    rw [h] at hlen
    simp only [List.length_nil] at hlen
    omega
  simp [batched_draw, Nat.pos_iff_ne_zero.mp hG, hdvd, drawPasses_snd,
    List.isEmpty_iff, hne]

lemma batched_draw_snd_dvd (kind : Kind) (n : Nat) (tr : List Nat)
    (gens : List Generator) (d : Device) (dt : Dtype)
    (hG : 0 < gens.length) (hdvd : n % gens.length = 0) :
    (batched_draw kind (n :: tr) gens d dt).2 =
      gens.map (advanceBy (n / gens.length)) := by
  rcases Nat.eq_zero_or_pos n with hn | hn
  · subst hn
    rw [batched_draw_zero_batch kind tr gens d dt hG]
    have h : advanceBy 0 = id := funext fun g => advanceBy_zero g
    simp [h]
  · rw [batched_draw_pos kind n tr gens d dt hG hdvd hn]

lemma batched_draw_sampleAt (kind : Kind) (n : Nat) (tr : List Nat)
    (gens : List Generator) (d : Device) (dt : Dtype)
    (hG : 0 < gens.length) (hdvd : n % gens.length = 0)
    (i : Nat) (hi : i < n) :
    sampleAt (batched_draw kind (n :: tr) gens d dt).1 i =
      (gens.get? (i % gens.length)).map
        (fun g => mkSlice (advanceBy (i / gens.length) g) tr dt kind) := by
  have hn : 0 < n := by omega
  have hmul : n / gens.length * gens.length = n :=
    Nat.div_mul_cancel (Nat.dvd_of_mod_eq_zero hdvd)
  rw [batched_draw_pos kind n tr gens d dt hG hdvd hn]
  show (drawPasses tr dt kind (n / gens.length) gens).1.get? i = _
  exact drawPasses_fst_get? tr dt kind (n / gens.length) gens i (by omega)

/-! ### Helper lemmas about reseeding and call sequences -/

lemma manual_seed_advanceBy (k : Nat) (g : Generator) :
    manual_seed (advanceBy k g) = manual_seed g := by
  simp [manual_seed, advanceBy]

lemma batched_draw_snd_reset (kind : Kind) (shape : List Nat)
    (gens : List Generator) (d : Device) (dt : Dtype) :
    ((batched_draw kind shape gens d dt).2).map manual_seed =
      gens.map manual_seed := by
  match shape with
  | [] => simp [batched_draw]
  | n :: tr =>
    by_cases h0 : gens.length = 0
    · simp [batched_draw, h0]
    · by_cases hdvd : n % gens.length = 0
      · rw [batched_draw_snd_dvd kind n tr gens d dt (Nat.pos_of_ne_zero h0)
          hdvd]
        rw [List.map_map]
        exact List.map_congr_left fun g _ => manual_seed_advanceBy _ g
      · rw [batched_draw_not_dvd kind n tr gens d dt (Nat.pos_of_ne_zero h0)
          hdvd]

lemma runCall_snd_reset (c : BatchedCall) (gens : List Generator) :
    ((runCall c gens).2).map manual_seed = gens.map manual_seed := by
  cases c with
  | rand shape device dtype =>
    exact batched_draw_snd_reset Kind.uniform shape gens device dtype
  | randn shape device dtype =>
    exact batched_draw_snd_reset Kind.normal shape gens device dtype

lemma runCalls_snd_reset (cs : List BatchedCall) :
    ∀ gens : List Generator,
      ((runCalls cs gens).2).map manual_seed = gens.map manual_seed := by
  induction cs with
  | nil => intro gens; rfl
  | cons c cs ih =>
    intro gens
    show ((runCalls cs (runCall c gens).2).2).map manual_seed = _
    rw [ih (runCall c gens).2, runCall_snd_reset]

lemma map_manual_seed_of_pos_zero (gens : List Generator)
    (h : ∀ g ∈ gens, g.pos = 0) : gens.map manual_seed = gens := by
  conv_rhs => rw [← List.map_id gens]
  exact List.map_congr_left fun g hg => by
    cases g with
    | mk s p dv =>
      have hp := h _ hg
      simp only at hp
      simp [manual_seed, hp]

/-! ### Helper lemmas about the non-determinism tracker -/

lemma warnMsg_inj {a b : String} (h : warnMsg a = warnMsg b) : a = b := by
  have hdata := congrArg String.data h
  simp only [warnMsg, String.data_append] at hdata
  have hab : a.data = b.data := List.append_cancel_left hdata
  cases a
  cases b
  simp only at hab
  simp [hab]

lemma countKey_append (k : String) (l1 l2 : List String) :
    countKey k (l1 ++ l2) = countKey k l1 + countKey k l2 := by
  induction l1 with
  | nil => simp [countKey]
  | cons m ms ih => simp [countKey, ih, Nat.add_assoc]

lemma trackStep_eq (c : TrackedCall) (st : TrackerState) :
    trackStep c st =
      if c.hasGenerator then st
      else if c.caller.key ∈ st.warned then st
      else { warned := c.caller.key :: st.warned,
             log := st.log ++ [warnMsg c.caller.key] } := rfl

lemma runTracked_eq_step (c : TrackedCall) (cs : List TrackedCall)
    (st : TrackerState) :
    runTracked (c :: cs) st = runTracked cs (trackStep c st) := rfl

lemma runTracked_warned_mono (cs : List TrackedCall) :
    ∀ st : TrackerState, st.warned ⊆ (runTracked cs st).warned := by
  induction cs with
  | nil => intro st; exact fun _ h => h
  | cons c cs ih =>
    intro st
    rw [runTracked_eq_step]
    refine fun x hx => ih (trackStep c st) ?_
    rw [trackStep_eq]
    by_cases hg : c.hasGenerator
    · simpa [hg] using hx
    · by_cases hmem : c.caller.key ∈ st.warned
      · simpa [hg, hmem] using hx
      · simp only [hg, hmem, if_false, if_neg]
        exact List.mem_cons_of_mem _ hx

lemma runTracked_countKey (cs : List TrackedCall) :
    ∀ (st : TrackerState) (k : String),
      countKey k (runTracked cs st).log =
        countKey k st.log +
          (if k ∈ st.warned then 0
           else if cs.any (fun c => !c.hasGenerator && c.caller.key == k)
             then 1 else 0) := by
  induction cs with
  | nil =>
    intro st k
    by_cases hk : k ∈ st.warned <;> simp [runTracked, hk]
  | cons c cs ih =>
    intro st k
    rw [runTracked_eq_step, ih (trackStep c st) k, trackStep_eq]
    by_cases hg : c.hasGenerator
    · simp [hg]
    · have hg' : c.hasGenerator = false := by simpa using hg
      by_cases hck : c.caller.key = k
      · subst hck
        have hany : (c :: cs).any
            (fun x => !x.hasGenerator && x.caller.key == c.caller.key) = true := by
          simp [List.any_cons, hg']
        by_cases hmem : c.caller.key ∈ st.warned
        · simp [hg', hmem]
        · rw [if_neg (by simp [hg']), if_neg hmem, countKey_append]
          have h1 : countKey c.caller.key [warnMsg c.caller.key] = 1 := by
            simp [countKey]
          rw [h1]
          simp [hmem, hany]
      · have hbeq : (c.caller.key == k) = false := by
          simpa using hck
        have hanyeq : (c :: cs).any
              (fun x => !x.hasGenerator && x.caller.key == k) =
            cs.any (fun x => !x.hasGenerator && x.caller.key == k) := by
          simp [List.any_cons, hg', hbeq]
        rw [hanyeq]
        by_cases hmem : c.caller.key ∈ st.warned
        · rw [if_neg (by simp [hg']), if_pos hmem]
        · rw [if_neg (by simp [hg']), if_neg hmem, countKey_append]
          have h0 : countKey k [warnMsg c.caller.key] = 0 := by
            have hne : ¬ warnMsg c.caller.key = warnMsg k :=
              fun h => hck (warnMsg_inj h)
            simp [countKey, hne]
          rw [h0]
          have hmemiff : (k ∈ c.caller.key :: st.warned) ↔ k ∈ st.warned := by
            rw [List.mem_cons]
            constructor
            · rintro (h | h)
              · exact absurd h.symm hck
              · exact h
            · exact Or.inr
          rw [if_congr hmemiff rfl rfl]
          omega

/-! ### Claim theorems -/

/-- C1: the batched draws are deterministic functions of the stream states
and the request (the embedding renders each torch draw as a pure function of
exactly those), and resetting every stream to its initial seed after an
arbitrary sequence of batched calls and repeating the same sequence
reproduces the identical output trace and final stream states, bit for
bit. -/
theorem C1_reset_replay (cs : List BatchedCall) (gens : List Generator)
    (h : ∀ g ∈ gens, g.pos = 0) :
    runCalls cs (((runCalls cs gens).2).map manual_seed) =
      runCalls cs gens := by
  rw [runCalls_snd_reset cs gens, map_manual_seed_of_pos_zero gens h]

/-- Witness for C1 at a concrete two-call sequence over one fresh stream. -/
theorem C1_reset_replay_witness :
    runCalls [BatchedCall.rand [2, 3] Device.cpu Dtype.float32,
        BatchedCall.randn [2] Device.cpu Dtype.float16]
      (((runCalls [BatchedCall.rand [2, 3] Device.cpu Dtype.float32,
            BatchedCall.randn [2] Device.cpu Dtype.float16]
          [{ seed := 5, pos := 0, device := Device.cpu }]).2).map manual_seed) =
      runCalls [BatchedCall.rand [2, 3] Device.cpu Dtype.float32,
          BatchedCall.randn [2] Device.cpu Dtype.float16]
        [{ seed := 5, pos := 0, device := Device.cpu }] :=
  C1_reset_replay _ _ (by decide)

/-- C2 (amended to positive batch sizes): for a shape `[N, ...]` with `N` a
positive exact multiple of the stream count `G`, both batched draws succeed
and return a tensor of exactly `N` single-sample slices of the trailing
shape, where the `i`-th slice was drawn from stream `i mod G` (its sequence
position offset by `i / G`, the number of earlier cycles), concatenated in
index order and transferred to the target device. -/
theorem C2_batch_partition (n : Nat) (tr : List Nat) (gens : List Generator)
    (d : Device) (dt : Dtype) (hG : 0 < gens.length)
    (hdvd : n % gens.length = 0) (hn : 0 < n) :
    (∃ t : Tensor, (batched_rand (n :: tr) gens d dt).1 = .ok t ∧
      t.slices.length = n ∧ t.toDevice = some d ∧
      ∀ i, i < n → t.slices.get? i =
        (gens.get? (i % gens.length)).map
          (fun g => mkSlice (advanceBy (i / gens.length) g) tr dt
            Kind.uniform)) ∧
    (∃ t : Tensor, (batched_randn (n :: tr) gens d dt).1 = .ok t ∧
      t.slices.length = n ∧ t.toDevice = some d ∧
      ∀ i, i < n → t.slices.get? i =
        (gens.get? (i % gens.length)).map
          (fun g => mkSlice (advanceBy (i / gens.length) g) tr dt
            Kind.normal)) := by
  have hmul : n / gens.length * gens.length = n :=
    Nat.div_mul_cancel (Nat.dvd_of_mod_eq_zero hdvd)
  have main : ∀ kind : Kind,
      ∃ t : Tensor, (batched_draw kind (n :: tr) gens d dt).1 = .ok t ∧
        t.slices.length = n ∧ t.toDevice = some d ∧
        ∀ i, i < n → t.slices.get? i =
          (gens.get? (i % gens.length)).map
            (fun g => mkSlice (advanceBy (i / gens.length) g) tr dt kind) := by
    intro kind
    refine ⟨⟨(drawPasses tr dt kind (n / gens.length) gens).1, some d⟩,
      ?_, ?_, rfl, ?_⟩
    · rw [batched_draw_pos kind n tr gens d dt hG hdvd hn]
    · show (drawPasses tr dt kind (n / gens.length) gens).1.length = n
      rw [drawPasses_fst_length, hmul]
    · intro i hi
      exact drawPasses_fst_get? tr dt kind (n / gens.length) gens i (by omega)
  exact ⟨main Kind.uniform, main Kind.normal⟩

/-- Witness for C2 at `N = 4`, `G = 2` with fresh cpu streams. -/
theorem C2_batch_partition_witness :
    (∃ t : Tensor, (batched_rand [4, 3]
        [{ seed := 1, pos := 0, device := Device.cpu },
         { seed := 2, pos := 0, device := Device.cpu }]
        Device.cpu Dtype.float32).1 = .ok t ∧
      t.slices.length = 4 ∧ t.toDevice = some Device.cpu ∧
      ∀ i, i < 4 → t.slices.get? i =
        (([{ seed := 1, pos := 0, device := Device.cpu },
           { seed := 2, pos := 0, device := Device.cpu }] :
            List Generator).get? (i % 2)).map
          (fun g => mkSlice (advanceBy (i / 2) g) [3] Dtype.float32
            Kind.uniform)) ∧
    (∃ t : Tensor, (batched_randn [4, 3]
        [{ seed := 1, pos := 0, device := Device.cpu },
         { seed := 2, pos := 0, device := Device.cpu }]
        Device.cpu Dtype.float32).1 = .ok t ∧
      t.slices.length = 4 ∧ t.toDevice = some Device.cpu ∧
      ∀ i, i < 4 → t.slices.get? i =
        (([{ seed := 1, pos := 0, device := Device.cpu },
           { seed := 2, pos := 0, device := Device.cpu }] :
            List Generator).get? (i % 2)).map
          (fun g => mkSlice (advanceBy (i / 2) g) [3] Dtype.float32
            Kind.normal)) :=
  C2_batch_partition 4 [3]
    [{ seed := 1, pos := 0, device := Device.cpu },
     { seed := 2, pos := 0, device := Device.cpu }]
    Device.cpu Dtype.float32 (by decide) (by decide) (by decide)

/-- Counterexample to C2 as stated: `N = 0` is an exact multiple of
`G = 1`, but the draw does not return a tensor of the requested shape —
`torch.cat` on the empty slice list raises, so the call fails. -/
theorem C2_counterexample_zero_batch :
    (batched_rand [0, 3] [{ seed := 1, pos := 0, device := Device.cpu }]
        Device.cpu Dtype.float32).1 = .error .catEmpty ∧
    (batched_randn [0, 3] [{ seed := 1, pos := 0, device := Device.cpu }]
        Device.cpu Dtype.float32).1 = .error .catEmpty :=
  ⟨rfl, rfl⟩

/-- C3: with a nonempty stream list, both batched draws raise the
invalid-batch-size `ValueError` exactly when the batch size is not
divisible by the stream count, and when they raise it no stream state has
been consumed (the generator list is returned untouched). -/
theorem C3_invalid_batch_size_iff (n : Nat) (tr : List Nat)
    (gens : List Generator) (d : Device) (dt : Dtype)
    (hG : 0 < gens.length) :
    ((batched_rand (n :: tr) gens d dt).1 =
        .error (.invalidBatchSize n gens.length) ↔ n % gens.length ≠ 0) ∧
    ((batched_randn (n :: tr) gens d dt).1 =
        .error (.invalidBatchSize n gens.length) ↔ n % gens.length ≠ 0) ∧
    (n % gens.length ≠ 0 →
      (batched_rand (n :: tr) gens d dt).2 = gens ∧
      (batched_randn (n :: tr) gens d dt).2 = gens) := by
  have main : ∀ kind : Kind,
      ((batched_draw kind (n :: tr) gens d dt).1 =
          .error (.invalidBatchSize n gens.length) ↔ n % gens.length ≠ 0) := by
    intro kind
    constructor
    · intro h hdvd
      rcases Nat.eq_zero_or_pos n with hn | hn
      · subst hn
        rw [batched_draw_zero_batch kind tr gens d dt hG] at h
        exact absurd h (by simp)
      · rw [batched_draw_pos kind n tr gens d dt hG hdvd hn] at h
        exact absurd h (by simp)
    · intro hndvd
      rw [batched_draw_not_dvd kind n tr gens d dt hG hndvd]
  refine ⟨main Kind.uniform, main Kind.normal, fun hndvd => ⟨?_, ?_⟩⟩
  · show (batched_draw Kind.uniform (n :: tr) gens d dt).2 = gens
    rw [batched_draw_not_dvd Kind.uniform n tr gens d dt hG hndvd]
  · show (batched_draw Kind.normal (n :: tr) gens d dt).2 = gens
    rw [batched_draw_not_dvd Kind.normal n tr gens d dt hG hndvd]

/-- Witness for C3: `N = 5`, `G = 3` raises the invalid-batch-size error
with the streams untouched, while `N = 6`, `G = 3` succeeds. -/
theorem C3_invalid_batch_size_witness :
    (batched_rand [5]
        [{ seed := 1, pos := 0, device := Device.cpu },
         { seed := 2, pos := 0, device := Device.cpu },
         { seed := 3, pos := 0, device := Device.cpu }]
        Device.cpu Dtype.float32).1 = .error (.invalidBatchSize 5 3) ∧
    (batched_rand [5]
        [{ seed := 1, pos := 0, device := Device.cpu },
         { seed := 2, pos := 0, device := Device.cpu },
         { seed := 3, pos := 0, device := Device.cpu }]
        Device.cpu Dtype.float32).2 =
      [{ seed := 1, pos := 0, device := Device.cpu },
       { seed := 2, pos := 0, device := Device.cpu },
       { seed := 3, pos := 0, device := Device.cpu }] ∧
    ∃ t : Tensor, (batched_rand [6]
        [{ seed := 1, pos := 0, device := Device.cpu },
         { seed := 2, pos := 0, device := Device.cpu },
         { seed := 3, pos := 0, device := Device.cpu }]
        Device.cpu Dtype.float32).1 = .ok t :=
  ⟨(C3_invalid_batch_size_iff 5 []
      [{ seed := 1, pos := 0, device := Device.cpu },
       { seed := 2, pos := 0, device := Device.cpu },
       { seed := 3, pos := 0, device := Device.cpu }]
      Device.cpu Dtype.float32 (by decide)).1.mpr (by decide),
   ((C3_invalid_batch_size_iff 5 []
      [{ seed := 1, pos := 0, device := Device.cpu },
       { seed := 2, pos := 0, device := Device.cpu },
       { seed := 3, pos := 0, device := Device.cpu }]
      Device.cpu Dtype.float32 (by decide)).2.2 (by decide)).1,
   ⟨_, rfl⟩⟩

/-- C10: with an empty stream list the batched draws do not raise the
invalid-batch-size error — evaluating `shape[0] % len(generators)` divides
by zero first, so the call fails with the division-by-zero error, leaving
the (empty) stream list untouched; the divisibility guard is total only
when at least one stream is present. -/
theorem C10_empty_stream_list (n : Nat) (tr : List Nat) (d : Device)
    (dt : Dtype) :
    batched_rand (n :: tr) [] d dt = (.error .zeroDivision, []) ∧
    batched_randn (n :: tr) [] d dt = (.error .zeroDivision, []) ∧
    (∀ m g, (batched_rand (n :: tr) [] d dt).1 ≠
      .error (.invalidBatchSize m g)) ∧
    (∀ m g, (batched_randn (n :: tr) [] d dt).1 ≠
      .error (.invalidBatchSize m g)) := by
  refine ⟨batched_draw_nil_gens Kind.uniform n tr d dt,
    batched_draw_nil_gens Kind.normal n tr d dt, ?_, ?_⟩
  · intro m g
    show (batched_draw Kind.uniform (n :: tr) [] d dt).1 ≠ _
    rw [batched_draw_nil_gens Kind.uniform n tr d dt]
    simp
  · intro m g
    show (batched_draw Kind.normal (n :: tr) [] d dt).1 ≠ _
    rw [batched_draw_nil_gens Kind.normal n tr d dt]
    simp

/-- Counterexample to C5 as stated: one `batched_rand` call of batch size
`N = 2` over a single stream (`G = 1`) advances that stream's sequence
position by two draws, not by exactly one — the stream is cycled `N / G`
times within the call. -/
theorem C5_counterexample_two_draws :
    (batched_rand [2] [{ seed := 7, pos := 0, device := Device.cpu }]
        Device.cpu Dtype.float32).2 =
      [{ seed := 7, pos := 2, device := Device.cpu }] ∧ (2 : Nat) ≠ 0 + 1 :=
  ⟨rfl, by decide⟩

/-- C5 (amended): for a batched draw of batch size `N` with the stream
count `G` dividing `N`, each stream's sequence position advances by exactly
`N / G` draws per call — one per cycle of the stream list, the same for
every stream and independent of the other streams' states — and sample
`i`'s slice depends only on stream `i mod G`'s incoming state, so
per-sample reproducibility is independent of the other samples in the
batch. -/
theorem C5_stream_advance (n : Nat) (tr : List Nat) (gens : List Generator)
    (d : Device) (dt : Dtype) (hG : 0 < gens.length)
    (hdvd : n % gens.length = 0) :
    ((batched_rand (n :: tr) gens d dt).2 =
        gens.map (advanceBy (n / gens.length)) ∧
     (batched_randn (n :: tr) gens d dt).2 =
        gens.map (advanceBy (n / gens.length))) ∧
    (∀ i, i < n → ∀ gens2 : List Generator, gens2.length = gens.length →
      gens2.get? (i % gens.length) = gens.get? (i % gens.length) →
      sampleAt (batched_rand (n :: tr) gens2 d dt).1 i =
        sampleAt (batched_rand (n :: tr) gens d dt).1 i ∧
      sampleAt (batched_randn (n :: tr) gens2 d dt).1 i =
        sampleAt (batched_randn (n :: tr) gens d dt).1 i) := by
  constructor
  · exact ⟨batched_draw_snd_dvd Kind.uniform n tr gens d dt hG hdvd,
      batched_draw_snd_dvd Kind.normal n tr gens d dt hG hdvd⟩
  · intro i hi gens2 hlen hagree
    have hG2 : 0 < gens2.length := by rw [hlen]; exact hG
    have hdvd2 : n % gens2.length = 0 := by rw [hlen]; exact hdvd
    constructor
    · show sampleAt (batched_draw Kind.uniform (n :: tr) gens2 d dt).1 i =
        sampleAt (batched_draw Kind.uniform (n :: tr) gens d dt).1 i
      rw [batched_draw_sampleAt Kind.uniform n tr gens2 d dt hG2 hdvd2 i hi,
        batched_draw_sampleAt Kind.uniform n tr gens d dt hG hdvd i hi,
        hlen, hagree]
    · show sampleAt (batched_draw Kind.normal (n :: tr) gens2 d dt).1 i =
        sampleAt (batched_draw Kind.normal (n :: tr) gens d dt).1 i
      rw [batched_draw_sampleAt Kind.normal n tr gens2 d dt hG2 hdvd2 i hi,
        batched_draw_sampleAt Kind.normal n tr gens d dt hG hdvd i hi,
        hlen, hagree]

/-- Witness for the amended C5 at `N = 6`, `G = 3`: every stream advances
by exactly `6 / 3 = 2` draws. -/
theorem C5_stream_advance_witness :
    (batched_rand [6]
        [{ seed := 1, pos := 0, device := Device.cpu },
         { seed := 2, pos := 0, device := Device.cpu },
         { seed := 3, pos := 0, device := Device.cpu }]
        Device.cpu Dtype.float32).2 =
      ([{ seed := 1, pos := 0, device := Device.cpu },
        { seed := 2, pos := 0, device := Device.cpu },
        { seed := 3, pos := 0, device := Device.cpu }] :
          List Generator).map (advanceBy 2) :=
  (C5_stream_advance 6 []
    [{ seed := 1, pos := 0, device := Device.cpu },
     { seed := 2, pos := 0, device := Device.cpu },
     { seed := 3, pos := 0, device := Device.cpu }]
    Device.cpu Dtype.float32 (by decide) (by decide)).1.1

/-- C4: when the input's batch size is a multiple of the stream count, the
override's `randint_like` draws exactly one single-sample integer slice per
stream, iterating the stream list once in order — the number of draws (and
of resulting slices) equals the number of streams, not the batch size, and
each stream advances by exactly one — unlike the normal/uniform batched
draws, which cycle the list `N / G` times. -/
theorem C4_randint_like_per_stream (self : TorchRandOverride)
    (input : InputTensor) (n : Nat) (tr : List Nat) (args : List Int)
    (high low : Option Int) (dtype : Option Dtype) (device : Option Device)
    (hshape : input.shape = n :: tr) (hG : 0 < self.generators.length)
    (hdvd : n % self.generators.length = 0) :
    self.randint_like input args high low dtype device =
      (.ok (.seeded ⟨self.generators.map (fun g => mkSlice g tr
          (dtype.getD Dtype.int64)
          (Kind.intRange (parse_randint_args args high low).1
            (parse_randint_args args high low).2)), device⟩),
       self.generators.map (advanceBy 1)) ∧
    (self.generators.map (fun g => mkSlice g tr (dtype.getD Dtype.int64)
        (Kind.intRange (parse_randint_args args high low).1
          (parse_randint_args args high low).2))).length =
      self.generators.length := by
  have hne : self.generators ≠ [] := by
    intro h
    rw [h] at hG
    simp at hG
  refine ⟨?_, by simp⟩
  simp only [TorchRandOverride.randint_like, hshape]
  rw [if_neg (by omega), if_neg (not_not_intro hdvd), drawPass_eq]
  rw [if_neg (by simp [hne])]

/-- Witness for C4: batch size `4` over `G = 2` streams produces exactly
two single-sample integer draws (one per stream), not four. -/
theorem C4_randint_like_witness :
    TorchRandOverride.randint_like
      ⟨[{ seed := 1, pos := 0, device := Device.cpu },
        { seed := 2, pos := 0, device := Device.cpu }]⟩
      ⟨[4, 5], Device.cpu, Dtype.float32⟩ [] (some 10) none none none =
      (.ok (.seeded ⟨([{ seed := 1, pos := 0, device := Device.cpu },
          { seed := 2, pos := 0, device := Device.cpu }] :
            List Generator).map (fun g => mkSlice g [5]
          (Dtype.int64) (Kind.intRange 0 (some 10))), none⟩),
       ([{ seed := 1, pos := 0, device := Device.cpu },
         { seed := 2, pos := 0, device := Device.cpu }] :
           List Generator).map (advanceBy 1)) ∧
    (([{ seed := 1, pos := 0, device := Device.cpu },
       { seed := 2, pos := 0, device := Device.cpu }] :
         List Generator).map (fun g => mkSlice g [5]
        (Dtype.int64) (Kind.intRange 0 (some 10)))).length = 2 :=
  C4_randint_like_per_stream
    ⟨[{ seed := 1, pos := 0, device := Device.cpu },
      { seed := 2, pos := 0, device := Device.cpu }]⟩
    ⟨[4, 5], Device.cpu, Dtype.float32⟩ 4 [5] [] (some 10) none none none
    rfl (by decide) (by decide)

/-- C6: for an input whose batch size is a multiple of the (nonempty)
stream list's length, the override's `randn_like` returns the batched
per-stream normal draw on the input's shape, with device and dtype taken
from the input unless explicitly overridden; otherwise it falls back to an
ordinary unseeded normal draw — returning successfully, consulting no
stream and leaving every stream's state untouched. -/
theorem C6_randn_like_branches (self : TorchRandOverride)
    (input : InputTensor) (n : Nat) (tr : List Nat) (dtype : Option Dtype)
    (device : Option Device) (hshape : input.shape = n :: tr)
    (hG : 0 < self.generators.length) :
    (n % self.generators.length = 0 →
      self.randn_like input dtype device =
        ((batched_randn input.shape self.generators
            (device.getD input.device) (dtype.getD input.dtype)).1.map
          DrawResult.seeded,
         (batched_randn input.shape self.generators
            (device.getD input.device) (dtype.getD input.dtype)).2)) ∧
    (n % self.generators.length ≠ 0 →
      self.randn_like input dtype device =
        (.ok (.unseeded Kind.normal input.shape (device.getD input.device)
          (dtype.getD input.dtype)), self.generators)) := by
  constructor
  · intro hdvd
    simp only [TorchRandOverride.randn_like, hshape]
    rw [if_neg (by omega), if_neg (not_not_intro hdvd)]
  · intro hndvd
    simp only [TorchRandOverride.randn_like, hshape]
    rw [if_neg (by omega), if_pos hndvd]

/-- Witness for C6 at a concrete fallback input: batch size `3` is not a
multiple of `G = 2`, so `randn_like` returns an unseeded draw and the
stream list is returned untouched. -/
theorem C6_randn_like_witness :
    TorchRandOverride.randn_like
      ⟨[{ seed := 1, pos := 0, device := Device.cpu },
        { seed := 2, pos := 0, device := Device.cpu }]⟩
      ⟨[3, 2], Device.cuda 0, Dtype.float32⟩ none none =
      (.ok (.unseeded Kind.normal [3, 2] (Device.cuda 0) Dtype.float32),
       [{ seed := 1, pos := 0, device := Device.cpu },
        { seed := 2, pos := 0, device := Device.cpu }]) :=
  (C6_randn_like_branches
    ⟨[{ seed := 1, pos := 0, device := Device.cpu },
      { seed := 2, pos := 0, device := Device.cpu }]⟩
    ⟨[3, 2], Device.cuda 0, Dtype.float32⟩ 3 [2] none none rfl
    (by decide)).2 (by decide)

/-- C7: the tracker's wrapper always returns exactly the value the wrapped
(original, unseeded) operation returns on the same arguments — whether or
not an explicit generator was supplied, and whatever the tracker state is —
so generation output with the tracker installed equals output without
it. -/
theorem C7_tracker_transparent {α β : Type} (wrapped : α → β)
    (hasGenerator : Bool) (caller : CallSite) (a : α) (st : TrackerState) :
    (tracker_wrapper wrapped hasGenerator caller a st).1 = wrapped a := rfl

/-- C8: running any sequence of tracker-wrapped calls from the fresh
process-wide state emits exactly one warning for a call-site key if some
call from that key lacked an explicit generator and none otherwise — so a
second call from the same source location logs nothing and two distinct
locations log two warnings — and the seen-set only ever grows. -/
theorem C8_tracker_warn_once :
    (∀ (cs : List TrackedCall) (k : String),
      countKey k (runTracked cs { warned := [], log := [] }).log =
        if cs.any (fun c => !c.hasGenerator && c.caller.key == k) then 1
        else 0) ∧
    (∀ (cs : List TrackedCall) (st : TrackerState),
      st.warned ⊆ (runTracked cs st).warned) := by
  constructor
  · intro cs k
    rw [runTracked_countKey]
    simp [countKey]
  · exact fun cs st => runTracked_warned_mono cs st

/-- Counterexample to C9 as stated: when the store sink fails while
emitting the first warning for a call site, the wrapper does not swallow
the failure — it returns the propagated exception instead of the wrapped
operation's value, so the call is not forwarded (and the seen-set is left
untouched, as `warned.add` is never reached). -/
theorem C9_counterexample_sink_raises :
    (tracker_wrapper_sink (fun _ : Unit => (42 : Nat)) (fun _ => true) false
        ⟨"file.py", 10, "fn"⟩ () { warned := [], log := [] }).1 =
      .error (warnMsg (CallSite.key ⟨"file.py", 10, "fn"⟩)) ∧
    (tracker_wrapper_sink (fun _ : Unit => (42 : Nat)) (fun _ => true) false
        ⟨"file.py", 10, "fn"⟩ () { warned := [], log := [] }).2 =
      { warned := [], log := [] } :=
  ⟨rfl, rfl⟩

/-- C9 (amended): the tracker wrapper installs no exception handling of
its own.  On every path that emits no warning (an explicit generator was
supplied, or the call-site key was already seen) and on a first-time
warning whose sink emission succeeds, it forwards the call and returns
the wrapped operation's value unchanged; but when the logging sink fails
while emitting the warning — as the repository's `StoreHandler.emit` can,
having no `try`/`except`, with nothing on the `logger.warn` path
catching — the failure propagates out of the wrapper: the call is not
forwarded and the seen-set is not updated.  With a never-failing sink the
wrapper coincides exactly with the infallible wrapper of the source's
happy path. -/
theorem C9_tracker_sink_propagates {α β : Type} (wrapped : α → β)
    (sinkFails : String → Bool) (hasGenerator : Bool) (caller : CallSite)
    (a : α) (st : TrackerState) :
    ((hasGenerator = true ∨ caller.key ∈ st.warned ∨
        sinkFails (warnMsg caller.key) = false) →
      (tracker_wrapper_sink wrapped sinkFails hasGenerator caller a st).1 =
        .ok (wrapped a)) ∧
    (hasGenerator = false → caller.key ∉ st.warned →
      sinkFails (warnMsg caller.key) = true →
      (tracker_wrapper_sink wrapped sinkFails hasGenerator caller a st).1 =
        .error (warnMsg caller.key) ∧
      (tracker_wrapper_sink wrapped sinkFails hasGenerator caller a st).2 =
        st) ∧
    ((∀ m, sinkFails m = false) →
      (tracker_wrapper_sink wrapped sinkFails hasGenerator caller a st).1 =
        .ok ((tracker_wrapper wrapped hasGenerator caller a st).1) ∧
      (tracker_wrapper_sink wrapped sinkFails hasGenerator caller a st).2 =
        (tracker_wrapper wrapped hasGenerator caller a st).2) := by
  refine ⟨?_, ?_, ?_⟩
  · rintro (hg | hm | hs)
    · simp [tracker_wrapper_sink, hg]
    · by_cases hg : hasGenerator
      · simp [tracker_wrapper_sink, hg]
      · have hg' : hasGenerator = false := by simpa using hg
        simp [tracker_wrapper_sink, hg', hm]
    · by_cases hg : hasGenerator
      · simp [tracker_wrapper_sink, hg]
      · have hg' : hasGenerator = false := by simpa using hg
        by_cases hm : caller.key ∈ st.warned
        · simp [tracker_wrapper_sink, hg', hm]
        · simp [tracker_wrapper_sink, hg', hm, hs]
  · intro hg hm hs
    constructor <;> simp [tracker_wrapper_sink, hg, hm, hs]
  · intro hok
    by_cases hg : hasGenerator
    · constructor <;> simp [tracker_wrapper_sink, tracker_wrapper, hg]
    · have hg' : hasGenerator = false := by simpa using hg
      by_cases hm : caller.key ∈ st.warned
      · constructor <;>
          simp [tracker_wrapper_sink, tracker_wrapper, hg', hm]
      · constructor <;>
          simp [tracker_wrapper_sink, tracker_wrapper, hg', hm, hok]

/-- Witness for the amended C9 at a concrete failing first-time warning:
the exception propagates and the state is unchanged. -/
theorem C9_tracker_sink_witness :
    (tracker_wrapper_sink (fun _ : Unit => (42 : Nat)) (fun _ => true) false
        ⟨"a.py", 3, "f"⟩ () { warned := [], log := [] }).1 =
      .error (warnMsg (CallSite.key ⟨"a.py", 3, "f"⟩)) ∧
    (tracker_wrapper_sink (fun _ : Unit => (42 : Nat)) (fun _ => true) false
        ⟨"a.py", 3, "f"⟩ () { warned := [], log := [] }).2 =
      { warned := [], log := [] } :=
  (C9_tracker_sink_propagates (fun _ : Unit => (42 : Nat)) (fun _ => true)
    false ⟨"a.py", 3, "f"⟩ () { warned := [], log := [] }).2.1 rfl
    (by simp) rfl

end Randtools










